import Mathlib

/-!
Verification development for the client-side audio playback engine of the
doc-capure repository.  The model below is a shallow embedding of the
`useAudioPlayer` hook (src/types.ts, lines 25-300), of the IndexedDB audio
cache wrapper (src/utils/db.ts) and of the persisted audio configuration
loaders (src/types.ts lines 53-76 and the App component variant).

Conventions of the embedding:
* JavaScript numbers (clock readings, media positions, speeds, volumes)
  are modelled as rationals (`ℚ`).
* The mutable refs of the hook (`audioSourceRef`, `audioBufferRef`,
  `playbackStartedAtRef`, `playbackPausedAtRef`, `generationIdRef`,
  `onEndedCallbackRef`, `animationFrameRef`) become fields of a single
  `PlayerState` record; React `setAudioState` updates become functional
  record updates applied in program order (successive updater functions
  compose, which is exactly how React folds queued updaters).
* The decoded `AudioBuffer` is abstracted to its duration (`Option ℚ`);
  the live `AudioBufferSourceNode` is a record of a fresh numeric id and
  its playback rate.  Two ghost instrumentation lists record which node
  ids have been started but not yet stopped (`liveNodes`) and which node
  ids still have their `onended` handler attached (`attachedHandlers`);
  they are updated exactly where the source calls `source.start`,
  `source.stop` / natural completion, `source.onended = ...` and
  `source.onended = null`.
* Asynchronous completions (cache lookup, synthesis, decode, the node's
  `onended` event, the `requestAnimationFrame` progress tick) are explicit
  events interleaved by a scheduler, mirroring the single-threaded
  event-loop semantics of the browser.
-/

namespace DocCapture

/-- Playback status of the transport (src/types.ts line 32). -/
inductive AudioStatus
  | idle
  | loading
  | playing
  | paused
  | error
deriving DecidableEq

/-- The `trackInfo` component of `AudioState` (src/types.ts lines 36-41). -/
structure TrackInfo where
  chapterIndex : Option Int
  paragraphIndex : Option Int
  chapterTitle : Option String
  paragraphContent : Option String
deriving DecidableEq

/-- The empty track reference used by the initial state and by `stop(true)`. -/
def TrackInfo.empty : TrackInfo := ⟨none, none, none, none⟩

/-- The live `AudioBufferSourceNode`, abstracted to a fresh id plus its
`playbackRate.value`. -/
structure SourceNode where
  id : Nat
  rate : ℚ
deriving DecidableEq

/-- Persisted audio configuration (src/types.ts lines 22-25). -/
structure AudioConfig where
  voice : String
  speed : ℚ
deriving DecidableEq

/-- Default configuration returned on missing/corrupt storage
(src/types.ts line 66). -/
def defaultConfig : AudioConfig := ⟨"Kore", 1⟩

/-- The full mutable state of the `useAudioPlayer` hook: the React
`AudioState` fields plus every mutable ref, plus ghost instrumentation of
started/not-stopped nodes and attached `onended` handlers. -/
structure PlayerState where
  status : AudioStatus
  trackInfo : TrackInfo
  currentTime : ℚ
  duration : ℚ
  volume : ℚ
  isMuted : Bool
  speed : ℚ
  errorMessage : Option String
  configVoice : String
  configSpeed : ℚ
  audioBuffer : Option ℚ
  sourceNode : Option SourceNode
  playbackStartedAt : ℚ
  playbackPausedAt : ℚ
  onEndedCb : Bool
  animationFrame : Bool
  hasContext : Bool
  hasGain : Bool
  gainValue : ℚ
  generationId : Nat
  nextNodeId : Nat
  liveNodes : List Nat
  attachedHandlers : List Nat
deriving DecidableEq

/-- Initial hook state (src/types.ts lines 78-105): `idle`, empty track,
volume 1, unmuted, speed from the (default) config, no refs populated. -/
def initPlayer : PlayerState where
  status := .idle
  trackInfo := TrackInfo.empty
  currentTime := 0
  duration := 0
  volume := 1
  isMuted := false
  speed := 1
  errorMessage := none
  configVoice := "Kore"
  configSpeed := 1
  audioBuffer := none
  sourceNode := none
  playbackStartedAt := 0
  playbackPausedAt := 0
  onEndedCb := false
  animationFrame := false
  hasContext := false
  hasGain := false
  gainValue := 1
  generationId := 0
  nextNodeId := 0
  liveNodes := []
  attachedHandlers := []

/-- The ids of the currently referenced output node (zero or one). -/
def sourceIds (s : PlayerState) : List Nat :=
  match s.sourceNode with
  | none => []
  | some nd => [nd.id]

/-- Remove the id of the given node (when one exists) from a ghost list. -/
def eraseCur : Option SourceNode → List Nat → List Nat
  | none, l => l
  | some nd, l => l.erase nd.id

/-- Teardown of the current output node (src/types.ts lines 112-121):
`onended = null`, `source.stop(0)`, `disconnect()`, ref cleared.  (When no
node is referenced this is the identity, as in the source.) -/
def stopNode (s : PlayerState) : PlayerState :=
  { s with
    sourceNode := none
    attachedHandlers := eraseCur s.sourceNode s.attachedHandlers
    liveNodes := eraseCur s.sourceNode s.liveNodes }

/-- `stop(resetFullState)` (src/types.ts lines 107-127): cancel the
animation frame, tear down the node, and when `resetFullState` also reset
the React state to idle and drop the decoded buffer and resume offset. -/
def stop (resetFullState : Bool) (s : PlayerState) : PlayerState :=
  let s1 := stopNode { s with animationFrame := false }
  if resetFullState then
    { s1 with
      status := .idle
      trackInfo := TrackInfo.empty
      currentTime := 0
      duration := 0
      audioBuffer := none
      playbackPausedAt := 0 }
  else s1

/-- `play(startTime)` (src/types.ts lines 153-188): requires a decoded
buffer; lazily creates the context and gain node; `stop(false)`; creates a
fresh source node at the current speed, attaches the `onended` handler,
sets the gain from mute/volume, starts the node at `startTime`, records
the clock anchors, transitions to `playing` and schedules the progress
loop. -/
def play (now startTime : ℚ) (s : PlayerState) : PlayerState :=
  match s.audioBuffer with
  | none => s
  | some _ =>
      let s1 := { s with hasContext := true, hasGain := true }
      let s2 := stop false s1
      let nid := s2.nextNodeId
      { s2 with
        sourceNode := some ⟨nid, s2.speed⟩
        attachedHandlers := nid :: s2.attachedHandlers
        gainValue := if s2.isMuted then 0 else s2.volume
        liveNodes := nid :: s2.liveNodes
        playbackStartedAt := now
        playbackPausedAt := startTime
        status := .playing
        animationFrame := true
        nextNodeId := nid + 1 }

/-- The Playback Clock formula (src/types.ts lines 136-137): media
position = resume offset + elapsed device time, scaled by the speed. -/
def clockPos (s : PlayerState) (now : ℚ) : ℚ :=
  s.playbackPausedAt + (now - s.playbackStartedAt) * s.speed

/-- One tick of the progress loop (src/types.ts lines 129-151): a no-op
unless `playing` with a context and a buffer; otherwise re-derive the
position from the clock anchors; if the buffer duration is positive and
reached, set `currentTime` to the duration, `stop(true)` and fire the
`onEnded` callback; else store the position and re-schedule.  The second
component counts `onEnded` invocations performed by the tick. -/
def updateProgress (now : ℚ) (s : PlayerState) : PlayerState × Nat :=
  match s.audioBuffer with
  | none => (s, 0)
  | some d =>
      if s.status = .playing ∧ s.hasContext then
        let t := clockPos s now
        if 0 < d ∧ d ≤ t then
          (stop true { s with currentTime := d }, if s.onEndedCb then 1 else 0)
        else
          ({ s with currentTime := t, animationFrame := true }, 0)
      else (s, 0)

/-- The platform fires the `onended` event of node `n` (the node ceases to
emit, leaving the started set); the handler installed by `play`
(src/types.ts lines 170-177) runs only if still attached, and its body
mutates state only when the fired node is still the current one and the
status is genuinely `playing`: then `stop(true)` and the `onEnded`
callback.  The second component counts callback invocations. -/
def nodeEnded (n : Nat) (s : PlayerState) : PlayerState × Nat :=
  let s0 := { s with liveNodes := s.liveNodes.erase n }
  if n ∈ s0.attachedHandlers then
    match s0.sourceNode with
    | some nd =>
        if nd.id = n ∧ s0.status = .playing then
          (stop true s0, if s0.onEndedCb then 1 else 0)
        else (s0, 0)
    | none => (s0, 0)
  else (s0, 0)

/-- `pause()` (src/types.ts lines 190-196): a no-op without a context or
when not `playing`; otherwise freeze the clock-derived position as the new
resume offset, `stop(false)` and transition to `paused`. -/
def pause (now : ℚ) (s : PlayerState) : PlayerState :=
  if s.hasContext ∧ s.status = .playing then
    let p := clockPos s now
    let s1 := stop false { s with playbackPausedAt := p }
    { s1 with status := .paused }
  else s

/-- `playPause()` (src/types.ts lines 198-204): toggles between `pause`
and `play(resumeOffset)`; no-op in any other status. -/
def playPause (now : ℚ) (s : PlayerState) : PlayerState :=
  if s.status = .playing then pause now s
  else if s.status = .paused then play now s.playbackPausedAt s
  else s

/-- `seekTo(time)` (src/types.ts lines 241-250): a no-op without a decoded
buffer; otherwise store `time` as the resume offset and displayed
`currentTime` (no clamping in the source) and, when currently playing,
restart playback from it. -/
def seekTo (now t : ℚ) (s : PlayerState) : PlayerState :=
  match s.audioBuffer with
  | none => s
  | some _ =>
      let s1 := { s with playbackPausedAt := t, currentTime := t }
      if s.status = .playing then play now t s1 else s1

/-- `handleVolumeChange(v)` (src/types.ts lines 252-257): set the volume,
derive `isMuted` from `v === 0`, and apply the gain when a gain node and
context exist. -/
def handleVolumeChange (v : ℚ) (s : PlayerState) : PlayerState :=
  let s1 := { s with volume := v, isMuted := decide (v = 0) }
  if s1.hasGain ∧ s1.hasContext then { s1 with gainValue := v } else s1

/-- `handleMuteToggle()` (src/types.ts lines 259-266). -/
def handleMuteToggle (s : PlayerState) : PlayerState :=
  let m := ! s.isMuted
  let s1 := { s with isMuted := m }
  if s1.hasGain ∧ s1.hasContext then
    { s1 with gainValue := if m then 0 else s.volume }
  else s1

/-- `handleSpeedChange(s)` (src/types.ts lines 268-273 together with the
effect at lines 275-277): update the persisted config speed, mirror it
into the state speed, and when a node is live update its rate in place.
No clock anchor is touched. -/
def handleSpeedChange (newSpeed : ℚ) (s : PlayerState) : PlayerState :=
  let s1 := { s with configSpeed := newSpeed, speed := newSpeed }
  match s1.sourceNode with
  | none => s1
  | some nd => { s1 with sourceNode := some { nd with rate := newSpeed } }

/-- The synchronous prologue of `loadAndPlay` (src/types.ts lines
206-211): register the `onEnded` callback, bump the generation counter,
`stop(true)`, and transition to `loading` with the new track reference. -/
def loadStart (track : TrackInfo) (s : PlayerState) : PlayerState :=
  let s1 := { s with onEndedCb := true, generationId := s.generationId + 1 }
  let s2 := stop true s1
  { s2 with status := .loading, trackInfo := track }

/-- The guarded success continuation of `loadAndPlay` (src/types.ts lines
229-231): install the decoded buffer, publish its duration, and start
playback from offset 0. -/
def loadApply (d now : ℚ) (s : PlayerState) : PlayerState :=
  play now 0 { s with audioBuffer := some d, duration := d }

/-- The guarded catch branch of `loadAndPlay` (src/types.ts lines
233-238): transition to `error` with a message. -/
def errorApply (s : PlayerState) : PlayerState :=
  { s with status := .error, errorMessage := some "Erro ao carregar áudio." }

/-! ### Operation sequences over the transport

An `Op` is one event processed by the single-threaded event loop: a user
transport action, a compressed `loadAndPlay` issue/completion pair, a
progress tick, or a node's `onended` event. -/

inductive Op
  | play (now startTime : ℚ)
  | pause (now : ℚ)
  | playPause (now : ℚ)
  | seekTo (now t : ℚ)
  | stop (full : Bool)
  | loadStart (track : TrackInfo)
  | loadComplete (captured : Nat) (d now : ℚ)
  | loadFail (captured : Nat)
  | updateProgress (now : ℚ)
  | nodeEnded (n : Nat)
  | volumeChange (v : ℚ)
  | muteToggle
  | speedChange (q : ℚ)

/-- Interpret one event.  `loadComplete`/`loadFail` carry the generation
id captured at issue time and apply their effect only if it still equals
the current counter, exactly as the checks at src/types.ts lines 219, 227
and 234. -/
def step (op : Op) (s : PlayerState) : PlayerState :=
  match op with
  | .play now st => play now st s
  | .pause now => pause now s
  | .playPause now => playPause now s
  | .seekTo now t => seekTo now t s
  | .stop full => stop full s
  | .loadStart track => loadStart track s
  | .loadComplete captured d now =>
      if captured = s.generationId then loadApply d now s else s
  | .loadFail captured =>
      if captured = s.generationId then errorApply s else s
  | .updateProgress now => (updateProgress now s).1
  | .nodeEnded n => (nodeEnded n s).1
  | .volumeChange v => handleVolumeChange v s
  | .muteToggle => handleMuteToggle s
  | .speedChange q => handleSpeedChange q s

/-- Run a sequence of events from a state. -/
def run (ops : List Op) (s : PlayerState) : PlayerState :=
  ops.foldl (fun s op => step op s) s

/-- The current node (if any) carries an id below the fresh-id counter. -/
def nodeIdBound (s : PlayerState) : Bool :=
  match s.sourceNode with
  | none => true
  | some nd => nd.id < s.nextNodeId

/-- Reachability invariant of the transport: the ghost list of
started-not-stopped nodes and the list of attached `onended` handlers both
coincide with the (at most one) currently referenced node, a referenced
node implies status `playing` with a context and a decoded buffer, and
node ids stay below the fresh-id counter. -/
def Inv (s : PlayerState) : Prop :=
  s.liveNodes = sourceIds s ∧ s.attachedHandlers = sourceIds s ∧
    (s.sourceNode.isSome = true →
      s.status = .playing ∧ s.hasContext = true ∧ s.audioBuffer.isSome = true) ∧
    nodeIdBound s = true

instance (s : PlayerState) : Decidable (Inv s) := by
  unfold Inv; infer_instance

/-! ### The generation pipeline as a concurrent system (C1)

Each `loadAndPlay` call is a little coroutine suspended at its await
points (cache lookup, speech synthesis, decode).  The scheduler advances
any pending request by one resolved await, mirroring arbitrary completion
interleavings of the browser event loop.  The token checks are placed
exactly where src/types.ts places them: after the synthesis await (line
219), after the decode await (line 227) and in the catch block (line
234); the cache-hit path reaches the decode await without an intermediate
check, and the (unguarded) lazy AudioContext creation at lines 223-225 is
the only player mutation a superseded request can still perform. -/

/-- Where a pending `loadAndPlay` coroutine is suspended. -/
inductive ReqPhase
  | awaitCache
  | awaitSynth
  | awaitDecode
  | finished
deriving DecidableEq

/-- One in-flight `loadAndPlay` request: the generation id captured at
issue time, the behaviour of its environment (cache hit?, failures at the
three awaits) and the duration of the buffer its decode produces. -/
structure Req where
  captured : Nat
  cacheHit : Bool
  cacheFails : Bool
  synthFails : Bool
  decodeFails : Bool
  dur : ℚ
  phase : ReqPhase
deriving DecidableEq

/-- Environment parameters of a request to be issued. -/
structure ReqSpec where
  track : TrackInfo
  cacheHit : Bool
  cacheFails : Bool
  synthFails : Bool
  decodeFails : Bool
  dur : ℚ
deriving DecidableEq

/-- The player together with the pool of in-flight requests. -/
structure System where
  player : PlayerState
  reqs : List Req
deriving DecidableEq

/-- Issue one `loadAndPlay` call: run the synchronous prologue
(`loadStart`, which bumps the generation counter) and enqueue the
coroutine suspended at its first await. -/
def issueOne (spec : ReqSpec) (sys : System) : System :=
  let p := loadStart spec.track sys.player
  { player := p
    reqs := sys.reqs ++
      [⟨p.generationId, spec.cacheHit, spec.cacheFails, spec.synthFails,
        spec.decodeFails, spec.dur, .awaitCache⟩] }

/-- Issue a list of `loadAndPlay` calls back to back (before any of their
asynchronous work resolves). -/
def issueAll (specs : List ReqSpec) (sys : System) : System :=
  specs.foldl (fun sys spec => issueOne spec sys) sys

/-- Advance one request past its next resolved await.  `now` is the
context clock reading at the moment the decode continuation runs. -/
def stepReq (now : ℚ) (r : Req) (p : PlayerState) : Req × PlayerState :=
  match r.phase with
  | .awaitCache =>
      if r.cacheFails then
        ({ r with phase := .finished },
         if r.captured = p.generationId then errorApply p else p)
      else if r.cacheHit then
        ({ r with phase := .awaitDecode }, { p with hasContext := true })
      else
        ({ r with phase := .awaitSynth }, p)
  | .awaitSynth =>
      if r.synthFails then
        ({ r with phase := .finished },
         if r.captured = p.generationId then errorApply p else p)
      else if r.captured = p.generationId then
        ({ r with phase := .awaitDecode }, { p with hasContext := true })
      else
        ({ r with phase := .finished }, p)
  | .awaitDecode =>
      if r.decodeFails then
        ({ r with phase := .finished },
         if r.captured = p.generationId then errorApply p else p)
      else if r.captured = p.generationId then
        ({ r with phase := .finished }, loadApply r.dur now p)
      else
        ({ r with phase := .finished }, p)
  | .finished => (r, p)

/-- One scheduler step: advance the request at index `i` (no-op if the
index is out of range). -/
def schedStep (sys : System) (c : Nat × ℚ) : System :=
  match sys.reqs.get? c.1 with
  | none => sys
  | some r =>
      let rp := stepReq c.2 r sys.player
      { player := rp.2, reqs := sys.reqs.set c.1 rp.1 }

/-- Run an arbitrary schedule of await resolutions. -/
def runSched (sched : List (Nat × ℚ)) (sys : System) : System :=
  sched.foldl schedStep sys

/-- The controller-visible player state: every Playback State field of the
data model plus the decoded buffer, the presence and rate of the output
node, the clock anchors and the callback registration.  It omits only the
process-wide AudioContext flag (a lazily created singleton, explicitly not
part of the Playback State) and ghost bookkeeping (node ids, counters). -/
structure Obs where
  status : AudioStatus
  trackInfo : TrackInfo
  currentTime : ℚ
  duration : ℚ
  volume : ℚ
  isMuted : Bool
  speed : ℚ
  errorMessage : Option String
  configVoice : String
  configSpeed : ℚ
  audioBuffer : Option ℚ
  nodeLive : Bool
  nodeRate : Option ℚ
  playbackStartedAt : ℚ
  playbackPausedAt : ℚ
  onEndedCb : Bool
  animationFrame : Bool
  gainValue : ℚ
deriving DecidableEq

/-- Project the controller-visible part of a player state. -/
def obs (p : PlayerState) : Obs where
  status := p.status
  trackInfo := p.trackInfo
  currentTime := p.currentTime
  duration := p.duration
  volume := p.volume
  isMuted := p.isMuted
  speed := p.speed
  errorMessage := p.errorMessage
  configVoice := p.configVoice
  configSpeed := p.configSpeed
  audioBuffer := p.audioBuffer
  nodeLive := p.sourceNode.isSome
  nodeRate := p.sourceNode.map SourceNode.rate
  playbackStartedAt := p.playbackStartedAt
  playbackPausedAt := p.playbackPausedAt
  onEndedCb := p.onEndedCb
  animationFrame := p.animationFrame
  gainValue := p.gainValue

/-- The empty initial system. -/
def initSystem : System := ⟨initPlayer, []⟩

/-! ### The resolveAudio cache path (C7)

Model of the cache interaction of `loadAndPlay` (src/types.ts lines
214-221) over the IndexedDB wrapper of src/utils/db.ts: look the key up;
on hit return the cached bytes without touching the synthesis service; on
miss call `generateSpeech` once and write the result through
fire-and-forget (`storeAudio(...).catch(console.error)`), so a failed
write is swallowed. -/

/-- The cache key (src/types.ts line 214). -/
def cacheKey (voice text : String) : String := voice ++ "::" ++ text

/-- `getAudio` over an association-list model of the `audioClips` store
(src/utils/db.ts lines 40-57): absence is not an error. -/
def getAudio (k : String) : List (String × String) → Option String
  | [] => none
  | e :: rest => if e.1 = k then some e.2 else getAudio k rest

/-- Environment of one resolution: what the synthesis service would
return, whether it succeeds, and whether the cache write succeeds. -/
structure SynthEnv where
  bytes : String
  synthOk : Bool
  cacheWriteOk : Bool
deriving DecidableEq

/-- Outcome of one resolution: the bytes handed to the decoder (`none`
when synthesis failed and the error propagates), how many times the
Speech Synthesis Service was invoked, and the cache afterwards. -/
structure ResolveResult where
  result : Option String
  synthCalls : Nat
  cache : List (String × String)
deriving DecidableEq

/-- The cache-or-synthesize step of `loadAndPlay` (src/types.ts lines
214-221). -/
def resolveAudio (voice text : String) (cache : List (String × String))
    (env : SynthEnv) : ResolveResult :=
  let k := cacheKey voice text
  match getAudio k cache with
  | some b => ⟨some b, 0, cache⟩
  | none =>
      if env.synthOk then
        ⟨some env.bytes, 1,
         if env.cacheWriteOk then (k, env.bytes) :: cache else cache⟩
      else ⟨none, 1, cache⟩

/-! ### Persisted audio configuration (C9)

Two loaders exist in the repository.  The hook's own loader (src/types.ts
lines 53-67) accepts a stored value iff `typeof parsed.voice ===
'string' && typeof parsed.speed === 'number'`; the App component's loader
(src/unnamed/part_001 lines 78-91) accepts it iff
`AVAILABLE_VOICES.includes(parsed.voice)` and returns the parsed object
as-is, never inspecting `speed`. -/

/-- A dynamically typed JavaScript value sitting in a parsed JSON field. -/
inductive JField
  | jstr (s : String)
  | jnum (q : ℚ)
  | jother
deriving DecidableEq

/-- The result of `JSON.parse` on the stored string: the two fields of
interest, each possibly missing. -/
structure ParsedStored where
  voice : Option JField
  speed : Option JField
deriving DecidableEq

/-- The five voice names known to the application (src/unnamed/part_001
line 19). -/
def AVAILABLE_VOICES : List String :=
  ["Kore", "Puck", "Charon", "Fenrir", "Zephyr"]

/-- The hook's config loader (src/types.ts lines 53-67).  The argument is
`none` when no value is stored, `some none` when the stored string fails
to parse (the catch branch), and `some (some p)` when it parses to `p`. -/
def initAudioConfig : Option (Option ParsedStored) → AudioConfig
  | some (some p) =>
      match p.voice, p.speed with
      | some (.jstr v), some (.jnum q) => ⟨v, q⟩
      | _, _ => defaultConfig
  | _ => defaultConfig

/-- Default stored shape corresponding to `{ voice: 'Kore', speed: 1 }`. -/
def defaultStored : ParsedStored := ⟨some (.jstr "Kore"), some (.jnum 1)⟩

/-- The App component's config loader (src/unnamed/part_001 lines 78-91):
returns the parsed object unchanged whenever its voice is one of the five
known names; the speed field is never validated. -/
def initAudioConfigApp : Option (Option ParsedStored) → ParsedStored
  | some (some p) =>
      match p.voice with
      | some (.jstr v) => if v ∈ AVAILABLE_VOICES then p else defaultStored
      | _ => defaultStored
  | _ => defaultStored

/-- What `JSON.parse (JSON.stringify cfg)` yields for the write-back
effect (src/types.ts lines 70-76). -/
def storedOf (cfg : AudioConfig) : ParsedStored :=
  ⟨some (.jstr cfg.voice), some (.jnum cfg.speed)⟩

/-- A concrete reachable mid-playback state used to instantiate theorems:
a 10-second track playing from offset 0 with node id 0 live. -/
def exPlaying : PlayerState :=
  { initPlayer with
    status := .playing
    audioBuffer := some 10
    duration := 10
    sourceNode := some ⟨0, 1⟩
    hasContext := true
    hasGain := true
    onEndedCb := true
    animationFrame := true
    liveNodes := [0]
    attachedHandlers := [0]
    nextNodeId := 1 }

/-- A concrete paused state used to instantiate theorems: a 10-second
track paused at position 3. -/
def exPaused : PlayerState :=
  { initPlayer with
    status := .paused
    audioBuffer := some 10
    duration := 10
    currentTime := 3
    playbackPausedAt := 3
    hasContext := true
    hasGain := true
    onEndedCb := true
    nextNodeId := 1 }

/-! ## Invariant preservation -/

theorem sourceIds_none {s : PlayerState} (h : s.sourceNode = none) :
    sourceIds s = [] := by
  simp [sourceIds, h]

theorem sourceIds_some {s : PlayerState} {nd : SourceNode}
    (h : s.sourceNode = some nd) : sourceIds s = [nd.id] := by
  simp [sourceIds, h]

theorem eraseCur_sourceIds {s : PlayerState} {l : List Nat}
    (h : l = sourceIds s) : eraseCur s.sourceNode l = [] := by
  cases hsrc : s.sourceNode with
  | none => rw [sourceIds_none hsrc] at h; simp [eraseCur, h]
  | some nd => rw [sourceIds_some hsrc] at h; simp [eraseCur, h]

/-- The weak node instrumentation invariant: the started-not-stopped list
is empty or coincides with the current node reference.  Unlike the full
`Inv`, this is preserved by every event, in any order. -/
def InvLive (s : PlayerState) : Prop :=
  s.liveNodes = [] ∨ s.liveNodes = sourceIds s

theorem eraseCur_nil (o : Option SourceNode) : eraseCur o [] = [] := by
  cases o <;> rfl

theorem stopNode_live {s : PlayerState} (h : InvLive s) :
    (stopNode s).liveNodes = [] := by
  rcases h with h | h
  · show eraseCur s.sourceNode s.liveNodes = []
    rw [h]; exact eraseCur_nil _
  · exact eraseCur_sourceIds h

theorem stop_live {s : PlayerState} (full : Bool) (h : InvLive s) :
    (stop full s).liveNodes = [] := by
  have h0 : InvLive { s with animationFrame := false } := h
  have h1 := stopNode_live h0
  cases full with
  | false => exact h1
  | true => exact h1

theorem stop_sourceNode (full : Bool) (s : PlayerState) :
    (stop full s).sourceNode = none := by
  cases full <;> rfl

theorem play_spec {s : PlayerState} {d : ℚ} (now st : ℚ) (h : InvLive s)
    (hbuf : s.audioBuffer = some d) :
    (play now st s).liveNodes = [s.nextNodeId] ∧
    (play now st s).sourceNode = some ⟨s.nextNodeId, s.speed⟩ ∧
    (play now st s).status = .playing ∧
    (play now st s).playbackStartedAt = now ∧
    (play now st s).playbackPausedAt = st := by
  have h1 : InvLive { s with hasContext := true, hasGain := true } := h
  have h2 := stop_live false h1
  unfold play
  rw [hbuf]
  refine ⟨?_, rfl, rfl, rfl, rfl⟩
  show (stop false { s with hasContext := true, hasGain := true }).nextNodeId ::
      (stop false { s with hasContext := true, hasGain := true }).liveNodes =
      [s.nextNodeId]
  rw [h2]
  rfl

theorem invLive_play {s : PlayerState} (now st : ℚ) (h : InvLive s) :
    InvLive (play now st s) := by
  cases hbuf : s.audioBuffer with
  | none => unfold play; rw [hbuf]; exact h
  | some d =>
      obtain ⟨hl, hsrc, -, -, -⟩ := play_spec now st h hbuf
      right
      rw [hl, sourceIds_some hsrc]

theorem invLive_stop {s : PlayerState} (full : Bool) (h : InvLive s) :
    InvLive (stop full s) :=
  Or.inl (stop_live full h)

theorem invLive_eraseLive {s : PlayerState} (n : Nat) (h : InvLive s) :
    InvLive { s with liveNodes := s.liveNodes.erase n } := by
  rcases h with h | h
  · left
    show s.liveNodes.erase n = []
    rw [h]; rfl
  · cases hsrc : s.sourceNode with
    | none =>
        left
        rw [sourceIds_none hsrc] at h
        show s.liveNodes.erase n = []
        rw [h]; rfl
    | some nd =>
        rw [sourceIds_some hsrc] at h
        by_cases hn : nd.id = n
        · left
          show s.liveNodes.erase n = []
          rw [h, hn]
          simp
        · right
          show s.liveNodes.erase n = [nd.id]
          rw [h, List.erase_cons]
          simp [hn]

theorem invLive_nodeEnded {s : PlayerState} (n : Nat) (h : InvLive s) :
    InvLive (nodeEnded n s).1 := by
  have h0 : InvLive { s with liveNodes := s.liveNodes.erase n } :=
    invLive_eraseLive n h
  unfold nodeEnded
  dsimp only
  split
  · split
    · split
      · exact Or.inl (stop_live true h0)
      · exact h0
    · exact h0
  · exact h0

theorem invLive_pause {s : PlayerState} (now : ℚ) (h : InvLive s) :
    InvLive (pause now s) := by
  unfold pause
  split
  · exact Or.inl (stop_live false h)
  · exact h

theorem invLive_playPause {s : PlayerState} (now : ℚ) (h : InvLive s) :
    InvLive (playPause now s) := by
  unfold playPause
  split
  · exact invLive_pause now h
  · split
    · exact invLive_play now s.playbackPausedAt h
    · exact h

theorem invLive_seekTo {s : PlayerState} (now t : ℚ) (h : InvLive s) :
    InvLive (seekTo now t s) := by
  unfold seekTo
  cases hbuf : s.audioBuffer with
  | none => exact h
  | some d =>
      dsimp only
      split
      · exact invLive_play now t h
      · exact h

theorem invLive_updateProgress {s : PlayerState} (now : ℚ) (h : InvLive s) :
    InvLive (updateProgress now s).1 := by
  unfold updateProgress
  cases hbuf : s.audioBuffer with
  | none => exact h
  | some d =>
      dsimp only
      split
      · split
        · exact Or.inl (stop_live true h)
        · exact h
      · exact h

theorem invLive_volume {s : PlayerState} (v : ℚ) (h : InvLive s) :
    InvLive (handleVolumeChange v s) := by
  unfold handleVolumeChange
  dsimp only
  split
  · exact h
  · exact h

theorem invLive_mute {s : PlayerState} (h : InvLive s) :
    InvLive (handleMuteToggle s) := by
  unfold handleMuteToggle
  dsimp only
  split
  · exact h
  · exact h

theorem invLive_speed {s : PlayerState} (q : ℚ) (h : InvLive s) :
    InvLive (handleSpeedChange q s) := by
  unfold handleSpeedChange
  cases hsrc : s.sourceNode with
  | none =>
      rcases h with h | h
      · exact Or.inl h
      · rw [sourceIds_none hsrc] at h
        exact Or.inl h
  | some nd =>
      rcases h with h | h
      · exact Or.inl h
      · right
        rw [sourceIds_some hsrc] at h
        show s.liveNodes = sourceIds _
        rw [h]
        simp [sourceIds]

theorem invLive_loadStart {s : PlayerState} (track : TrackInfo)
    (h : InvLive s) : InvLive (loadStart track s) :=
  Or.inl (stop_live true h)

theorem invLive_loadApply {s : PlayerState} (d now : ℚ) (h : InvLive s) :
    InvLive (loadApply d now s) :=
  invLive_play now 0 h

theorem invLive_errorApply {s : PlayerState} (h : InvLive s) :
    InvLive (errorApply s) := h

theorem invLive_step (op : Op) {s : PlayerState} (h : InvLive s) :
    InvLive (step op s) := by
  cases op with
  | play now st => exact invLive_play now st h
  | pause now => exact invLive_pause now h
  | playPause now => exact invLive_playPause now h
  | seekTo now t => exact invLive_seekTo now t h
  | stop full => exact invLive_stop full h
  | loadStart track => exact invLive_loadStart track h
  | loadComplete captured d now =>
      show InvLive (if captured = s.generationId then loadApply d now s else s)
      split
      · exact invLive_loadApply d now h
      · exact h
  | loadFail captured =>
      show InvLive (if captured = s.generationId then errorApply s else s)
      split
      · exact invLive_errorApply h
      · exact h
  | updateProgress now => exact invLive_updateProgress now h
  | nodeEnded n => exact invLive_nodeEnded n h
  | volumeChange v => exact invLive_volume v h
  | muteToggle => exact invLive_mute h
  | speedChange q => exact invLive_speed q h

theorem invLive_run (ops : List Op) {s : PlayerState} (h : InvLive s) :
    InvLive (run ops s) := by
  induction ops generalizing s with
  | nil => exact h
  | cons op rest ih => exact ih (invLive_step op h)

theorem invLive_length {s : PlayerState} (h : InvLive s) :
    s.liveNodes.length ≤ 1 := by
  rcases h with h | h
  · rw [h]; exact Nat.zero_le 1
  · rw [h]
    cases hsrc : s.sourceNode with
    | none => rw [sourceIds_none hsrc]; exact Nat.zero_le 1
    | some nd => rw [sourceIds_some hsrc]; exact Nat.le_refl 1

theorem stop_attached {s : PlayerState} (full : Bool)
    (h : s.attachedHandlers = sourceIds s) :
    (stop full s).attachedHandlers = [] := by
  have h1 : eraseCur s.sourceNode s.attachedHandlers = [] := eraseCur_sourceIds h
  cases full with
  | false => exact h1
  | true => exact h1

theorem nodeEnded_count_zero {s : PlayerState} (m : Nat)
    (h : s.attachedHandlers = []) : (nodeEnded m s).2 = 0 := by
  simp [nodeEnded, h]

/-! ## C2 -/

/-- C2: after any finite sequence of transport events (play, pause,
playPause, seekTo, stop, loadAndPlay issues/completions/failures, progress
ticks, node-end events, volume/mute/speed changes) starting from the
initial state, at most one output node is started-but-not-stopped; and
`play` always releases the currently active node before starting the
fresh one, leaving exactly the fresh node live. -/
theorem c2_single_active_node :
    (∀ ops : List Op, (run ops initPlayer).liveNodes.length ≤ 1) ∧
    (∀ (s : PlayerState) (nd : SourceNode) (now st d : ℚ),
      Inv s → s.sourceNode = some nd → s.audioBuffer = some d →
        (play now st s).liveNodes = [s.nextNodeId] ∧
        (play now st s).sourceNode = some ⟨s.nextNodeId, s.speed⟩ ∧
        nd.id ∉ (play now st s).liveNodes) := by
  constructor
  · intro ops
    exact invLive_length (invLive_run ops (Or.inl rfl))
  · intro s nd now st d hInv hsrc hbuf
    obtain ⟨hl, -, -, hbound⟩ := hInv
    have hLive : InvLive s := Or.inr hl
    obtain ⟨h1, h2, -, -, -⟩ := play_spec now st hLive hbuf
    refine ⟨h1, h2, ?_⟩
    rw [h1]
    have hlt : nd.id < s.nextNodeId := by
      simpa [nodeIdBound, hsrc] using hbound
    simp only [List.mem_singleton]
    omega

/-- Witness for C2 at concrete inputs. -/
theorem c2_single_active_node_witness :
    (run [Op.loadStart TrackInfo.empty] initPlayer).liveNodes.length ≤ 1 ∧
    (play 5 2 exPlaying).liveNodes = [1] := by
  refine ⟨c2_single_active_node.1 _, ?_⟩
  have h := (c2_single_active_node.2 exPlaying ⟨0, 1⟩ 5 2 10
    (by decide) rfl rfl).1
  exact h

/-! ## C3 -/

/-- C3: for a track started via `loadAndPlay` (a registered callback, a
live current node, in a state satisfying the reachability invariant): the
node's natural end fires the `onEnded` callback exactly once — once on the
end event itself, zero on any later node-end event; an explicit `stop`
(either flavour) or a `pause` detaches the handler so a subsequent end
event never fires the callback; and when the polling loop detects the end
first (firing the callback), the node's own later end event fires zero. -/
theorem c3_onended_exactly_once (s : PlayerState) (nd : SourceNode)
    (hInv : Inv s) (hsrc : s.sourceNode = some nd) (hcb : s.onEndedCb = true) :
    (nodeEnded nd.id s).2 = 1 ∧
    (∀ m, (nodeEnded m (nodeEnded nd.id s).1).2 = 0) ∧
    (∀ full m, (nodeEnded m (stop full s)).2 = 0) ∧
    (∀ now m, (nodeEnded m (pause now s)).2 = 0) ∧
    (∀ now, (updateProgress now s).2 = 1 →
      ∀ m, (nodeEnded m (updateProgress now s).1).2 = 0) := by
  obtain ⟨hl, ha, hps, hbound⟩ := hInv
  obtain ⟨hst, hctx, hbuf⟩ := hps (by rw [hsrc]; rfl)
  refine ⟨?_, ?_, ?_, ?_, ?_⟩
  · simp [nodeEnded, ha, sourceIds_some hsrc, hsrc, hst, hcb]
  · intro m
    have hfst : (nodeEnded nd.id s).1 =
        stop true { s with liveNodes := s.liveNodes.erase nd.id } := by
      simp [nodeEnded, ha, sourceIds_some hsrc, hsrc, hst]
    rw [hfst]
    exact nodeEnded_count_zero m (stop_attached true ha)
  · intro full m
    exact nodeEnded_count_zero m (stop_attached full ha)
  · intro now m
    have hpa : (pause now s).attachedHandlers = [] := by
      unfold pause
      rw [if_pos ⟨hctx, hst⟩]
      exact stop_attached false ha
    exact nodeEnded_count_zero m hpa
  · intro now h1 m
    cases hbuf2 : s.audioBuffer with
    | none => simp [updateProgress, hbuf2] at h1
    | some d =>
        by_cases hend : 0 < d ∧ d ≤ clockPos s now
        · have hfst : (updateProgress now s).1 =
              stop true { s with currentTime := d } := by
            simp [updateProgress, hbuf2, hst, hctx, hend]
          rw [hfst]
          exact nodeEnded_count_zero m (stop_attached true ha)
        · exfalso
          simp [updateProgress, hbuf2, hst, hctx, hend] at h1

/-- Witness for C3 at concrete inputs. -/
theorem c3_onended_exactly_once_witness :
    (nodeEnded 0 exPlaying).2 = 1 ∧
    (nodeEnded 0 (stop true exPlaying)).2 = 0 := by
  have h := c3_onended_exactly_once exPlaying ⟨0, 1⟩ (by decide) rfl rfl
  exact ⟨h.1, h.2.2.1 true 0⟩

theorem play_fields {s : PlayerState} {d : ℚ} (now st : ℚ)
    (hbuf : s.audioBuffer = some d) :
    (play now st s).status = .playing ∧
    (play now st s).playbackStartedAt = now ∧
    (play now st s).playbackPausedAt = st ∧
    (play now st s).speed = s.speed ∧
    (play now st s).audioBuffer = some d ∧
    (play now st s).trackInfo = s.trackInfo := by
  unfold play
  rw [hbuf]
  exact ⟨rfl, rfl, rfl, rfl, rfl, rfl⟩

/-! ## C4 -/

/-- C4 (amended): while `playing` with a context, a buffer of duration `d`
and non-negative speed, every progress tick re-derives the position by the
Playback Clock formula (not incrementally); ticks that leave the status
`playing` produce non-decreasing `currentTime` samples; and when the
computed position reaches or exceeds a positive duration, the tick treats
playback as finished — it fires the callback and runs the full stop, so
the final displayed `currentTime` is 0 (the momentary clamp to the
duration is immediately overwritten by the reset), with status `idle`. -/
theorem updateProgress_mid {s : PlayerState} {d : ℚ} (now : ℚ)
    (hb : s.audioBuffer = some d) (hst : s.status = .playing)
    (hctx : s.hasContext = true) (hend : ¬(0 < d ∧ d ≤ clockPos s now)) :
    (updateProgress now s).1 =
      { s with currentTime := clockPos s now, animationFrame := true } := by
  simp [updateProgress, hb, hst, hctx, hend]

theorem c4_playback_clock (s : PlayerState) (d : ℚ)
    (hb : s.audioBuffer = some d) (hst : s.status = .playing)
    (hctx : s.hasContext = true) (hsp : 0 ≤ s.speed) :
    (∀ now, ¬(0 < d ∧ d ≤ clockPos s now) →
      (updateProgress now s).1.currentTime = clockPos s now ∧
      (updateProgress now s).1.status = .playing) ∧
    (∀ now1 now2, now1 ≤ now2 →
      ¬(0 < d ∧ d ≤ clockPos s now1) → ¬(0 < d ∧ d ≤ clockPos s now2) →
      (updateProgress now1 s).1.currentTime ≤
        (updateProgress now2 (updateProgress now1 s).1).1.currentTime) ∧
    (∀ now, 0 < d → d ≤ clockPos s now →
      (updateProgress now s).1.status = .idle ∧
      (updateProgress now s).1.currentTime = 0 ∧
      (updateProgress now s).2 = (if s.onEndedCb then 1 else 0)) := by
  refine ⟨?_, ?_, ?_⟩
  · intro now hend
    rw [updateProgress_mid now hb hst hctx hend]
    exact ⟨rfl, hst⟩
  · intro now1 now2 h12 hend1 hend2
    rw [updateProgress_mid now1 hb hst hctx hend1]
    rw [updateProgress_mid
      (s := { s with currentTime := clockPos s now1, animationFrame := true })
      now2 hb hst hctx hend2]
    show clockPos s now1 ≤ clockPos s now2
    unfold clockPos
    have hmul := mul_le_mul_of_nonneg_right
      (sub_le_sub_right h12 s.playbackStartedAt) hsp
    linarith
  · intro now hpos hle
    have hfin : (updateProgress now s).1 =
        stop true { s with currentTime := d } := by
      simp [updateProgress, hb, hst, hctx, hpos, hle]
    refine ⟨by rw [hfin]; rfl, by rw [hfin]; rfl, ?_⟩
    simp [updateProgress, hb, hst, hctx, hpos, hle]

/-- Witness for C4 at concrete inputs. -/
theorem c4_playback_clock_witness :
    (updateProgress 4 exPlaying).1.currentTime = 4 ∧
    (updateProgress 12 exPlaying).1.status = .idle := by
  have hsp : (0 : ℚ) ≤ exPlaying.speed := by norm_num [exPlaying, initPlayer]
  have h := c4_playback_clock exPlaying 10 rfl rfl rfl hsp
  have hend4 : ¬(0 < (10 : ℚ) ∧ (10 : ℚ) ≤ clockPos exPlaying 4) := by
    norm_num [clockPos, exPlaying, initPlayer]
  have hend12 : (10 : ℚ) ≤ clockPos exPlaying 12 := by
    norm_num [clockPos, exPlaying, initPlayer]
  refine ⟨?_, (h.2.2 12 (by norm_num) hend12).1⟩
  have h1 := (h.1 4 hend4).1
  rw [h1]
  norm_num [clockPos, exPlaying, initPlayer]

/-- C4 counterexample to the claim as stated: the claim requires the
displayed `currentTime` to be clamped to exactly the duration when the
computed position reaches the end; the code momentarily sets it to the
duration but then `stop(true)` resets it to 0 in the same tick, so the
displayed value is 0, not the duration. -/
theorem c4_clamp_counterexample :
    exPlaying.audioBuffer = some 10 ∧
    10 ≤ clockPos exPlaying 12 ∧
    (updateProgress 12 exPlaying).1.currentTime = 0 ∧
    (updateProgress 12 exPlaying).1.currentTime ≠ 10 := by
  norm_num [updateProgress, clockPos, exPlaying, initPlayer, stop, stopNode,
    eraseCur]

/-! ## C5 -/

/-- C5: pausing while playing freezes the clock-derived position as the
resume offset, keeps the decoded buffer and track reference, tears down
the node and transitions to `paused`; a subsequent `playPause` resumes
playback from exactly that frozen position (not 0, not the stale offset):
the new anchors make the clock read the pause-time position at the moment
of resume. -/
theorem c5_pause_resume (s : PlayerState) (nowP nowR : ℚ)
    (hst : s.status = .playing) (hctx : s.hasContext = true)
    {d : ℚ} (hd : s.audioBuffer = some d) :
    (pause nowP s).status = .paused ∧
    (pause nowP s).playbackPausedAt = clockPos s nowP ∧
    (pause nowP s).audioBuffer = s.audioBuffer ∧
    (pause nowP s).trackInfo = s.trackInfo ∧
    (pause nowP s).sourceNode = none ∧
    (playPause nowR (pause nowP s)).status = .playing ∧
    (playPause nowR (pause nowP s)).playbackPausedAt = clockPos s nowP ∧
    (playPause nowR (pause nowP s)).playbackStartedAt = nowR ∧
    clockPos (playPause nowR (pause nowP s)) nowR = clockPos s nowP := by
  have hpause : pause nowP s =
      { stop false { s with playbackPausedAt := clockPos s nowP } with
        status := .paused } := by
    unfold pause
    rw [if_pos ⟨hctx, hst⟩]
  have hPbuf : (pause nowP s).audioBuffer = some d := by rw [hpause]; exact hd
  have hPP : playPause nowR (pause nowP s) =
      play nowR (clockPos s nowP) (pause nowP s) := by
    rw [hpause]; rfl
  obtain ⟨hq1, hq2, hq3, -, -, -⟩ :=
    play_fields (s := pause nowP s) nowR (clockPos s nowP) hPbuf
  refine ⟨by rw [hpause]; try rfl, by rw [hpause]; try rfl,
    hPbuf.trans hd.symm, by rw [hpause]; try rfl, by rw [hpause]; try rfl,
    ?_, ?_, ?_, ?_⟩
  · rw [hPP]; exact hq1
  · rw [hPP]; exact hq3
  · rw [hPP]; exact hq2
  · rw [hPP]
    generalize hgen : clockPos s nowP = q at hq2 hq3 ⊢
    unfold clockPos
    rw [hq2, hq3]
    ring

/-- Witness for C5 at concrete inputs: pause at device time 3 (position
3), resume at device time 7. -/
theorem c5_pause_resume_witness :
    (pause 3 exPlaying).status = .paused ∧
    (pause 3 exPlaying).playbackPausedAt = 3 ∧
    (playPause 7 (pause 3 exPlaying)).playbackPausedAt = 3 ∧
    clockPos (playPause 7 (pause 3 exPlaying)) 7 = 3 := by
  have h := c5_pause_resume exPlaying 3 7 rfl rfl rfl
  have hc : clockPos exPlaying 3 = 3 := by
    norm_num [clockPos, exPlaying, initPlayer]
  rw [hc] at h
  exact ⟨h.1, h.2.1, h.2.2.2.2.2.2.1, h.2.2.2.2.2.2.2.2⟩

/-! ## C6 -/

/-- C6 counterexample to the claim as stated: `seekTo` never clamps to
`[0, duration]`.  Seeking to 11 on a paused 10-second track stores 11 as
both the resume offset and the displayed `currentTime`, beyond the
duration. -/
theorem c6_seek_no_clamp_counterexample :
    exPaused.duration = 10 ∧
    (seekTo 0 11 exPaused).playbackPausedAt = 11 ∧
    (seekTo 0 11 exPaused).currentTime = 11 ∧
    ¬((seekTo 0 11 exPaused).currentTime ≤ exPaused.duration) := by
  have hs : seekTo 0 11 exPaused =
      { exPaused with playbackPausedAt := 11, currentTime := 11 } := by
    simp [seekTo, exPaused, initPlayer]
  refine ⟨rfl, by rw [hs], by rw [hs], ?_⟩
  rw [hs]
  show ¬((11 : ℚ) ≤ 10)
  norm_num

/-- C6 (amended): `seekTo(t)` stores `t` as given — without clamping to
`[0, duration]` — as both the resume offset and the displayed
`currentTime`.  If the player is paused this is the only effect (status
stays `paused`, no node is started, nothing else changes); if it is
playing, playback restarts from `t` with the clock re-anchored at the
current device time. -/
theorem c6_seek_semantics (s : PlayerState) (d t now : ℚ)
    (hbuf : s.audioBuffer = some d) :
    (s.status = .paused →
      seekTo now t s = { s with playbackPausedAt := t, currentTime := t }) ∧
    (s.status = .playing →
      (seekTo now t s).status = .playing ∧
      (seekTo now t s).playbackPausedAt = t ∧
      (seekTo now t s).playbackStartedAt = now ∧
      clockPos (seekTo now t s) now = t) := by
  constructor
  · intro hpd
    unfold seekTo
    rw [hbuf]
    dsimp only
    rw [if_neg (by rw [hpd]; intro h; cases h)]
  · intro hpl
    have hseek : seekTo now t s =
        play now t { s with playbackPausedAt := t, currentTime := t } := by
      unfold seekTo
      rw [hbuf]
      dsimp only
      rw [if_pos hpl]
    have hbuf2 : ({ s with playbackPausedAt := t, currentTime := t }
        : PlayerState).audioBuffer = some d := hbuf
    obtain ⟨hq1, hq2, hq3, -, -, -⟩ := play_fields now t hbuf2
    refine ⟨by rw [hseek]; exact hq1, by rw [hseek]; exact hq3,
      by rw [hseek]; exact hq2, ?_⟩
    rw [hseek]
    unfold clockPos
    rw [hq2, hq3]
    ring

/-- Witness for C6 (amended) at concrete inputs. -/
theorem c6_seek_semantics_witness :
    seekTo 0 11 exPaused =
      { exPaused with playbackPausedAt := 11, currentTime := 11 } ∧
    (seekTo 9 2 exPlaying).status = .playing ∧
    (seekTo 9 2 exPlaying).playbackPausedAt = 2 := by
  have h1 := (c6_seek_semantics exPaused 10 11 0 rfl).1 rfl
  have h2 := (c6_seek_semantics exPlaying 10 2 9 rfl).2 rfl
  exact ⟨h1, h2.1, h2.2.1⟩

/-! ## C8 -/

/-- C8 counterexample to the claim as stated: `handleSpeedChange` does not
re-anchor the Playback Clock.  Playing from offset 0 at speed 1, at device
time 4 the position is 4; after changing the speed to 2 at that instant,
the claim requires subsequent samples to advance at rate 2 from position 4
(so the sample at that same instant stays 4), but the code applies the new
speed to the whole elapsed interval and samples 8; the stored resume
offset remains 0 instead of the captured position 4. -/
theorem c8_no_reanchor_counterexample :
    clockPos exPlaying 4 = 4 ∧
    (handleSpeedChange 2 exPlaying).playbackPausedAt = 0 ∧
    (updateProgress 4 (handleSpeedChange 2 exPlaying)).1.currentTime = 8 ∧
    (updateProgress 4 (handleSpeedChange 2 exPlaying)).1.currentTime ≠
      clockPos exPlaying 4 := by
  norm_num [updateProgress, handleSpeedChange, clockPos, exPlaying, initPlayer]

/-- C8 (amended): `handleSpeedChange(s)` updates the persisted config
speed and the state speed, and when a node is live updates its rate in
place (same node, no restart, node list untouched); the clock anchors are
left unchanged, so every subsequent sample computes
`offset + (now − startedAt) × newSpeed`, applying the new speed
retroactively to the entire elapsed interval instead of re-anchoring at
the moment of the change. -/
theorem c8_speed_change (s : PlayerState) (ns : ℚ) :
    (handleSpeedChange ns s).configSpeed = ns ∧
    (handleSpeedChange ns s).speed = ns ∧
    (handleSpeedChange ns s).playbackStartedAt = s.playbackStartedAt ∧
    (handleSpeedChange ns s).playbackPausedAt = s.playbackPausedAt ∧
    (handleSpeedChange ns s).currentTime = s.currentTime ∧
    (handleSpeedChange ns s).status = s.status ∧
    (handleSpeedChange ns s).liveNodes = s.liveNodes ∧
    (∀ nd, s.sourceNode = some nd →
      (handleSpeedChange ns s).sourceNode = some { nd with rate := ns }) ∧
    (∀ now, clockPos (handleSpeedChange ns s) now =
      s.playbackPausedAt + (now - s.playbackStartedAt) * ns) := by
  unfold handleSpeedChange
  dsimp only
  cases hsrc : s.sourceNode with
  | none =>
      refine ⟨rfl, rfl, rfl, rfl, rfl, rfl, rfl, ?_, fun now => rfl⟩
      intro nd hnd
      cases hnd
  | some nd0 =>
      refine ⟨rfl, rfl, rfl, rfl, rfl, rfl, rfl, ?_, fun now => rfl⟩
      intro nd hnd
      cases hnd
      rfl

/-- Witness for C8 (amended) at concrete inputs. -/
theorem c8_speed_change_witness :
    (handleSpeedChange 2 exPlaying).speed = 2 ∧
    (handleSpeedChange 2 exPlaying).sourceNode = some ⟨0, 2⟩ := by
  have h := c8_speed_change exPlaying 2
  exact ⟨h.2.1, h.2.2.2.2.2.2.2.1 ⟨0, 1⟩ rfl⟩

/-! ## C10 -/

/-- C10: `handleVolumeChange(v)` sets the volume to `v`, sets `isMuted`
exactly when `v = 0`, and leaves status, `currentTime`, duration and speed
unchanged. -/
theorem c10_volume_change (v : ℚ) (s : PlayerState) :
    (handleVolumeChange v s).volume = v ∧
    ((handleVolumeChange v s).isMuted = true ↔ v = 0) ∧
    (handleVolumeChange v s).status = s.status ∧
    (handleVolumeChange v s).currentTime = s.currentTime ∧
    (handleVolumeChange v s).duration = s.duration ∧
    (handleVolumeChange v s).speed = s.speed := by
  unfold handleVolumeChange
  dsimp only
  split
  · exact ⟨rfl, by simp, rfl, rfl, rfl, rfl⟩
  · exact ⟨rfl, by simp, rfl, rfl, rfl, rfl⟩

/-! ## C7 -/

/-- C7: the generation pipeline first queries the cache under the key
`voice ++ "::" ++ text`; on a hit it returns the cached bytes and performs
zero synthesis calls; on a miss it calls the synthesis service exactly
once and (on success) returns its bytes regardless of whether the
fire-and-forget cache write succeeds — a cache-write failure never fails
the resolution. -/
theorem c7_cache_hit_skips_synthesis (voice text : String)
    (cache : List (String × String)) (env : SynthEnv) :
    (∀ b, getAudio (cacheKey voice text) cache = some b →
      resolveAudio voice text cache env = ⟨some b, 0, cache⟩) ∧
    (getAudio (cacheKey voice text) cache = none →
      (resolveAudio voice text cache env).synthCalls = 1 ∧
      (env.synthOk = true →
        (resolveAudio voice text cache env).result = some env.bytes)) ∧
    (resolveAudio voice text cache { env with cacheWriteOk := false }).result =
      (resolveAudio voice text cache { env with cacheWriteOk := true }).result := by
  refine ⟨?_, ?_, ?_⟩
  · intro b hb
    unfold resolveAudio
    dsimp only
    rw [hb]
  · intro hnone
    unfold resolveAudio
    dsimp only
    rw [hnone]
    constructor
    · dsimp only
      split <;> rfl
    · intro hok
      simp [hok]
  · unfold resolveAudio
    dsimp only
    cases hga : getAudio (cacheKey voice text) cache with
    | some b => rfl
    | none =>
        dsimp only
        cases hok : env.synthOk <;> simp [hok]

/-- Witness for C7 at concrete inputs: a pre-populated entry for
voice `v`, text `t` is returned with zero synthesis calls; a miss
resolves through synthesis even when the cache write fails. -/
theorem c7_cache_hit_skips_synthesis_witness :
    resolveAudio "v" "t" [("v::t", "B")] ⟨"S", true, true⟩ =
      ⟨some "B", 0, [("v::t", "B")]⟩ ∧
    (resolveAudio "v" "u" [("v::t", "B")] ⟨"S", true, false⟩).synthCalls = 1 ∧
    (resolveAudio "v" "u" [("v::t", "B")] ⟨"S", true, false⟩).result =
      some "S" := by
  have h1 := (c7_cache_hit_skips_synthesis "v" "t" [("v::t", "B")]
    ⟨"S", true, true⟩).1 "B" (by decide)
  have h2 := (c7_cache_hit_skips_synthesis "v" "u" [("v::t", "B")]
    ⟨"S", true, false⟩).2.1 (by decide)
  exact ⟨h1, h2.1, h2.2 rfl⟩

/-! ## C9 -/

/-- C9 counterexample to the claim as stated: the hook's startup loader
(src/types.ts lines 53-67) only checks that the stored voice is a string
and the speed a number; the unknown voice name "Hal" passes validation and
is returned instead of the default, refuting "the voice must be one of the
five known voice names". -/
theorem c9_validation_counterexample :
    initAudioConfig (some (some ⟨some (.jstr "Hal"), some (.jnum 1)⟩)) =
      ⟨"Hal", 1⟩ ∧
    "Hal" ∉ AVAILABLE_VOICES ∧
    initAudioConfig (some (some ⟨some (.jstr "Hal"), some (.jnum 1)⟩)) ≠
      defaultConfig := by
  refine ⟨rfl, by decide, by decide⟩

/-- C9 (amended): at startup the persisted `{voice, speed}` is read from
client-local storage.  The hook's loader accepts it iff the voice is a
string (any string, not only the five known names) and the speed is
numeric, and falls back to `{Kore, 1}` on absence, parse failure or shape
mismatch; the App component's loader instead requires the voice to be one
of the five known names but never validates the speed.  A written-back
configuration is accepted unchanged on the next startup. -/
theorem c9_config_load (v : String) (q : ℚ) (f : Option JField)
    (cfg : AudioConfig) :
    initAudioConfig none = defaultConfig ∧
    initAudioConfig (some none) = defaultConfig ∧
    initAudioConfig (some (some ⟨none, f⟩)) = defaultConfig ∧
    initAudioConfig (some (some ⟨some .jother, f⟩)) = defaultConfig ∧
    initAudioConfig (some (some ⟨some (.jstr v), none⟩)) = defaultConfig ∧
    initAudioConfig (some (some ⟨some (.jstr v), some .jother⟩)) =
      defaultConfig ∧
    initAudioConfig (some (some ⟨some (.jstr v), some (.jnum q)⟩)) = ⟨v, q⟩ ∧
    initAudioConfig (some (some (storedOf cfg))) = cfg ∧
    (v ∉ AVAILABLE_VOICES →
      initAudioConfigApp (some (some ⟨some (.jstr v), f⟩)) = defaultStored) ∧
    initAudioConfigApp (some (some ⟨some (.jstr "Kore"), some .jother⟩)) =
      ⟨some (.jstr "Kore"), some .jother⟩ := by
  refine ⟨rfl, rfl, rfl, rfl, rfl, rfl, rfl, rfl, ?_, by decide⟩
  intro hv
  unfold initAudioConfigApp
  dsimp only
  rw [if_neg hv]

/-- Witness for C9 (amended) at concrete inputs. -/
theorem c9_config_load_witness :
    initAudioConfig (some (some ⟨some (.jstr "Puck"), some (.jnum 2)⟩)) =
      ⟨"Puck", 2⟩ ∧
    initAudioConfigApp (some (some ⟨some (.jstr "Hal"), some (.jnum 1)⟩)) =
      defaultStored := by
  have h := c9_config_load "Hal" 1 (some (.jnum 1)) defaultConfig
  have h2 := c9_config_load "Puck" 2 none defaultConfig
  exact ⟨h2.2.2.2.2.2.2.1, h.2.2.2.2.2.2.2.2.1 (by decide)⟩

/-! ## C1 -/

theorem obs_loadApply (d now : ℚ) (p : PlayerState) :
    obs (loadApply d now p) =
      ⟨.playing, p.trackInfo, p.currentTime, d, p.volume, p.isMuted, p.speed,
       p.errorMessage, p.configVoice, p.configSpeed, some d, true,
       some p.speed, now, 0, p.onEndedCb, true,
       if p.isMuted then 0 else p.volume⟩ := rfl

theorem obs_loadApply_congr (d now : ℚ) {p q : PlayerState}
    (h : obs p = obs q) :
    obs (loadApply d now p) = obs (loadApply d now q) := by
  rw [obs_loadApply, obs_loadApply,
    show p.trackInfo = q.trackInfo from congrArg Obs.trackInfo h,
    show p.currentTime = q.currentTime from congrArg Obs.currentTime h,
    show p.volume = q.volume from congrArg Obs.volume h,
    show p.isMuted = q.isMuted from congrArg Obs.isMuted h,
    show p.speed = q.speed from congrArg Obs.speed h,
    show p.errorMessage = q.errorMessage from congrArg Obs.errorMessage h,
    show p.configVoice = q.configVoice from congrArg Obs.configVoice h,
    show p.configSpeed = q.configSpeed from congrArg Obs.configSpeed h,
    show p.onEndedCb = q.onEndedCb from congrArg Obs.onEndedCb h]

theorem obs_loadApply_idem (d now now0 : ℚ) (p : PlayerState) :
    obs (loadApply d now (loadApply d now0 p)) = obs (loadApply d now p) := rfl

theorem obs_stepReq_stale (r : Req) (p : PlayerState) (now : ℚ)
    (hne : r.captured ≠ p.generationId) :
    obs (stepReq now r p).2 = obs p := by
  unfold stepReq
  cases r.phase <;> dsimp only <;> (repeat' split) <;>
    first
      | rfl
      | exact absurd (by assumption) hne

theorem stepReq_gen (r : Req) (p : PlayerState) (now : ℚ) :
    (stepReq now r p).2.generationId = p.generationId := by
  unfold stepReq
  cases r.phase <;> dsimp only <;> (repeat' split) <;> rfl

theorem stepReq_req (r : Req) (p : PlayerState) (now : ℚ) :
    (stepReq now r p).1.captured = r.captured ∧
    (stepReq now r p).1.dur = r.dur ∧
    (stepReq now r p).1.cacheFails = r.cacheFails ∧
    (stepReq now r p).1.synthFails = r.synthFails ∧
    (stepReq now r p).1.decodeFails = r.decodeFails := by
  unfold stepReq
  cases r.phase <;> dsimp only <;> (repeat' split) <;>
    exact ⟨rfl, rfl, rfl, rfl, rfl⟩

theorem schedStep_gen (sys : System) (c : Nat × ℚ) :
    (schedStep sys c).player.generationId = sys.player.generationId := by
  unfold schedStep
  cases hg : sys.reqs.get? c.1 with
  | none => rfl
  | some r => exact stepReq_gen r sys.player c.2

theorem issueAll_bound (specs : List ReqSpec) :
    ∀ (sys : System),
      (∀ r ∈ sys.reqs, r.captured ≤ sys.player.generationId) →
      ∀ r ∈ (issueAll specs sys).reqs,
        r.captured ≤ (issueAll specs sys).player.generationId := by
  induction specs with
  | nil => intro sys h; exact h
  | cons spec rest ih =>
      intro sys h
      refine ih (issueOne spec sys) ?_
      intro r hr
      rcases List.mem_append.mp hr with hr | hr
      · exact Nat.le_succ_of_le (h r hr)
      · rw [List.mem_singleton.mp hr]
        exact Nat.le_refl _

/-- The scheduling invariant for the generation-token argument: with the
current counter frozen at `N` and every pending request captured at most
`N` (the one captured at exactly `N` carrying track `t`'s parameters), the
controller-visible state is either still `t`'s loading state or the state
with `t`'s decode applied — under any schedule. -/
theorem runSched_inv (t : ReqSpec) (N : Nat) (p0 : PlayerState) :
    ∀ (sched : List (Nat × ℚ)) (sys : System),
    sys.player.generationId = N →
    (∀ r ∈ sys.reqs, r.captured ≤ N ∧ (r.captured = N → r.dur = t.dur ∧
      r.cacheFails = false ∧ r.synthFails = false ∧ r.decodeFails = false)) →
    (obs sys.player = obs p0 ∨
      ∃ now, obs sys.player = obs (loadApply t.dur now p0)) →
    (obs (runSched sched sys).player = obs p0 ∨
      ∃ now, obs (runSched sched sys).player = obs (loadApply t.dur now p0)) := by
  intro sched
  induction sched with
  | nil => intro sys _ _ h3; exact h3
  | cons c rest ih =>
      intro sys h1 h2 h3
      refine ih (schedStep sys c) ?_ ?_ ?_
      · rw [schedStep_gen]; exact h1
      · show ∀ r ∈ (schedStep sys c).reqs, _
        unfold schedStep
        cases hg : sys.reqs.get? c.1 with
        | none => exact h2
        | some r =>
            dsimp only
            intro r2 hr2
            rcases List.mem_or_eq_of_mem_set hr2 with hmem | heq
            · exact h2 r2 hmem
            · obtain ⟨e1, e2, e3, e4, e5⟩ := stepReq_req r sys.player c.2
              have hr := h2 r (List.get?_mem hg)
              rw [heq, e1, e2, e3, e4, e5]
              exact hr
      · show obs (schedStep sys c).player = obs p0 ∨
          ∃ now, obs (schedStep sys c).player = obs (loadApply t.dur now p0)
        unfold schedStep
        cases hg : sys.reqs.get? c.1 with
        | none => exact h3
        | some r =>
            dsimp only
            by_cases hcap : r.captured = sys.player.generationId
            · have hr := (h2 r (List.get?_mem hg)).2 (by rw [hcap, h1])
              obtain ⟨hrdur, hrc, hrs, hrd⟩ := hr
              cases hph : r.phase with
              | awaitCache =>
                  have hP : obs (stepReq c.2 r sys.player).2 =
                      obs sys.player := by
                    unfold stepReq
                    rw [hph]
                    dsimp only
                    simp only [hrc, Bool.false_eq_true, if_false]
                    split <;> rfl
                  rw [hP]; exact h3
              | awaitSynth =>
                  have hP : obs (stepReq c.2 r sys.player).2 =
                      obs sys.player := by
                    unfold stepReq
                    rw [hph]
                    dsimp only
                    simp only [hrs, Bool.false_eq_true, if_false]
                    rw [if_pos hcap]
                    rfl
                  rw [hP]; exact h3
              | awaitDecode =>
                  have hP : (stepReq c.2 r sys.player).2 =
                      loadApply t.dur c.2 sys.player := by
                    unfold stepReq
                    rw [hph]
                    dsimp only
                    simp only [hrd, Bool.false_eq_true, if_false]
                    rw [if_pos hcap, hrdur]
                  rw [hP]
                  rcases h3 with h3 | ⟨now0, h3⟩
                  · exact Or.inr ⟨c.2, obs_loadApply_congr t.dur c.2 h3⟩
                  · refine Or.inr ⟨c.2, ?_⟩
                    rw [obs_loadApply_congr t.dur c.2 h3,
                      obs_loadApply_idem]
              | finished =>
                  have hP : (stepReq c.2 r sys.player).2 = sys.player := by
                    unfold stepReq
                    rw [hph]
                  rw [hP]; exact h3
            · rw [obs_stepReq_stale r sys.player c.2 hcap]
              exact h3

/-- C1: the Generation Token makes stale asynchronous results inert.
First conjunct: a pipeline step whose captured generation id differs from
the current counter never changes the controller-visible player state.
Second conjunct: applying a decode installs the decoded buffer, publishes
its duration and transitions to `playing`.  Third conjunct: for any
sequence of `loadAndPlay` issues (all before any asynchronous work
resolves) ending with track `t`, and any interleaved schedule of the
pending requests' cache/synthesis/decode completions, the
controller-visible state is either still `t`'s loading state or the state
with `t`'s decoded buffer, duration and `playing` transition applied —
the results of all earlier calls are discarded without mutating state. -/
theorem c1_generation_token :
    (∀ (r : Req) (p : PlayerState) (now : ℚ),
      r.captured ≠ p.generationId → obs (stepReq now r p).2 = obs p) ∧
    (∀ (d now : ℚ) (p : PlayerState),
      (loadApply d now p).status = .playing ∧
      (loadApply d now p).duration = d ∧
      (loadApply d now p).audioBuffer = some d) ∧
    (∀ (ts : List ReqSpec) (t : ReqSpec) (sched : List (Nat × ℚ)),
      t.cacheFails = false → t.synthFails = false → t.decodeFails = false →
      obs (runSched sched (issueOne t (issueAll ts initSystem))).player =
          obs (issueOne t (issueAll ts initSystem)).player ∨
        ∃ now,
          obs (runSched sched (issueOne t (issueAll ts initSystem))).player =
            obs (loadApply t.dur now
              (issueOne t (issueAll ts initSystem)).player)) := by
  refine ⟨obs_stepReq_stale, fun d now p => ⟨rfl, rfl, rfl⟩, ?_⟩
  intro ts t sched hcf hsf hdf
  have hbound : ∀ r ∈ (issueAll ts initSystem).reqs,
      r.captured ≤ (issueAll ts initSystem).player.generationId :=
    issueAll_bound ts initSystem (by intro r hr; cases hr)
  refine runSched_inv t
    (issueOne t (issueAll ts initSystem)).player.generationId
    (issueOne t (issueAll ts initSystem)).player sched _ rfl ?_ (Or.inl rfl)
  intro r hr
  rcases List.mem_append.mp hr with hr | hr
  · have hle := hbound r hr
    constructor
    · exact Nat.le_succ_of_le hle
    · intro hEq
      exfalso
      rw [hEq] at hle
      exact Nat.not_succ_le_self _ hle
  · rw [List.mem_singleton.mp hr]
    exact ⟨Nat.le_refl _, fun _ => ⟨rfl, hcf, hsf, hdf⟩⟩

/-- Witness for C1 at concrete inputs: a stale decode completion leaves
the state untouched, and three back-to-back issues followed by an
out-of-order completion schedule land in a state covered by the
loading-or-applied disjunction. -/
theorem c1_generation_token_witness :
    obs (stepReq 0 ⟨1, true, false, false, false, 5, .awaitDecode⟩
      exPlaying).2 = obs exPlaying ∧
    (obs (runSched [(2, 1), (0, 2), (1, 3), (2, 4), (1, 5), (0, 6)]
        (issueOne ⟨TrackInfo.empty, false, false, false, false, 7⟩
          (issueAll
            [⟨TrackInfo.empty, true, false, false, false, 4⟩,
             ⟨TrackInfo.empty, false, true, false, false, 6⟩]
            initSystem))).player =
        obs (issueOne ⟨TrackInfo.empty, false, false, false, false, 7⟩
          (issueAll
            [⟨TrackInfo.empty, true, false, false, false, 4⟩,
             ⟨TrackInfo.empty, false, true, false, false, 6⟩]
            initSystem)).player ∨
      ∃ now,
        obs (runSched [(2, 1), (0, 2), (1, 3), (2, 4), (1, 5), (0, 6)]
          (issueOne ⟨TrackInfo.empty, false, false, false, false, 7⟩
            (issueAll
              [⟨TrackInfo.empty, true, false, false, false, 4⟩,
               ⟨TrackInfo.empty, false, true, false, false, 6⟩]
              initSystem))).player =
          obs (loadApply 7 now
            (issueOne ⟨TrackInfo.empty, false, false, false, false, 7⟩
              (issueAll
                [⟨TrackInfo.empty, true, false, false, false, 4⟩,
                 ⟨TrackInfo.empty, false, true, false, false, 6⟩]
                initSystem)).player)) := by
  constructor
  · exact c1_generation_token.1 _ exPlaying 0 (by decide)
  · exact c1_generation_token.2.2
      [⟨TrackInfo.empty, true, false, false, false, 4⟩,
       ⟨TrackInfo.empty, false, true, false, false, 6⟩]
      ⟨TrackInfo.empty, false, false, false, false, 7⟩
      [(2, 1), (0, 2), (1, 3), (2, 4), (1, 5), (0, 6)] rfl rfl rfl

end DocCapture
